import Mathlib

/-!
Shallow embedding of the car-rental booking backend.

Dates are modelled as integers (day ordinals), money as rationals,
UUIDs as naturals.  The two JSON-file stores are modelled as lists of
records carried in an explicit `RentalState`; every service operation
takes the state and returns it (changed or unchanged) next to its
result, with Python `ValueError` exceptions rendered as `Except.error`
carrying the exception message.
-/

namespace CarRental

/-- `BookingStatus` from `src/domain/entities/booking.py`. -/
inductive BookingStatus where
  | pending
  | confirmed
  | cancelled
  | completed
deriving DecidableEq, Repr

/-- `CarStatus` from `src/domain/entities/car.py`. -/
inductive CarStatus where
  | available
  | rented
  | maintenance
deriving DecidableEq, Repr

/-- `Car` entity from `src/domain/entities/car.py`. -/
structure Car where
  id : Nat
  brand : String
  model : String
  year : Int
  license_plate : String
  daily_rate : ℚ
  status : CarStatus
  created_at : Int
  updated_at : Option Int
deriving DecidableEq, Repr

/-- `Booking` entity from `src/domain/entities/booking.py`. -/
structure Booking where
  id : Nat
  car_id : Nat
  customer_name : String
  customer_email : String
  start_date : Int
  end_date : Int
  total_cost : ℚ
  status : BookingStatus
  created_at : Int
  updated_at : Option Int
deriving DecidableEq, Repr

/-- The two JSON files (`cars.json`, `bookings.json`) as in-memory lists. -/
structure RentalState where
  cars : List Car
  bookings : List Booking
deriving DecidableEq, Repr

/-- Pydantic field constraints checked when `Booking(...)` is constructed
(`customer_name`/`customer_email` length 1..100, `total_cost > 0`, the
`validate_end_date` and `validate_start_date` validators). -/
def bookingFieldsOk (today : Int) (b : Booking) : Bool :=
  decide (1 ≤ b.customer_name.length) && decide (b.customer_name.length ≤ 100) &&
  decide (1 ≤ b.customer_email.length) && decide (b.customer_email.length ≤ 100) &&
  decide (0 < b.total_cost) &&
  decide (b.start_date < b.end_date) &&
  decide (today ≤ b.start_date)

/-- Pydantic field constraints checked when `Car(...)` is constructed. -/
def carFieldsOk (c : Car) : Bool :=
  decide (1 ≤ c.brand.length) && decide (c.brand.length ≤ 50) &&
  decide (1 ≤ c.model.length) && decide (c.model.length ≤ 50) &&
  decide (1900 ≤ c.year) && decide (c.year ≤ 2100) &&
  decide (1 ≤ c.license_plate.length) && decide (c.license_plate.length ≤ 20) &&
  decide (0 < c.daily_rate)

namespace JsonBookingRepository

/-- `JsonBookingRepository._dates_overlap`. -/
def datesOverlap (start1 end1 start2 end2 : Int) : Bool :=
  decide (start1 < end2) && decide (end1 > start2)

/-- `JsonBookingRepository.save`: appends the record to the file. -/
def save (bs : List Booking) (b : Booking) : List Booking :=
  bs ++ [b]

/-- `JsonBookingRepository.find_by_id`: first record with the id. -/
def findById (bs : List Booking) (bookingId : Nat) : Option Booking :=
  bs.find? (fun b => b.id == bookingId)

/-- `JsonBookingRepository.find_all`. -/
def findAll (bs : List Booking) : List Booking :=
  bs

/-- `JsonBookingRepository.find_by_car_and_date_range`: the records for
the car whose stored interval overlaps the queried one. -/
def findByCarAndDateRange (bs : List Booking) (carId : Nat)
    (startDate endDate : Int) : List Booking :=
  bs.filter (fun b =>
    b.car_id == carId && datesOverlap startDate endDate b.start_date b.end_date)

/-- `JsonBookingRepository.update`: replaces the first record with the
booking's id; returns the booking when found, `none` otherwise. -/
def update : List Booking → Booking → List Booking × Option Booking
  | [], _ => ([], none)
  | x :: xs, b =>
    if x.id == b.id then (b :: xs, some b)
    else
      let r := update xs b
      (x :: r.1, r.2)

/-- `JsonBookingRepository.delete`: drops records with the id; true iff
one was removed. -/
def delete (bs : List Booking) (bookingId : Nat) : List Booking × Bool :=
  let remaining := bs.filter (fun b => !(b.id == bookingId))
  (remaining, decide (remaining.length < bs.length))

end JsonBookingRepository

namespace JsonCarRepository

/-- `JsonCarRepository.save`. -/
def save (cs : List Car) (c : Car) : List Car :=
  cs ++ [c]

/-- `JsonCarRepository.find_by_id`. -/
def findById (cs : List Car) (carId : Nat) : Option Car :=
  cs.find? (fun c => c.id == carId)

/-- `JsonCarRepository.find_all`. -/
def findAll (cs : List Car) : List Car :=
  cs

/-- `JsonCarRepository.update`. -/
def update : List Car → Car → List Car × Option Car
  | [], _ => ([], none)
  | x :: xs, c =>
    if x.id == c.id then (c :: xs, some c)
    else
      let r := update xs c
      (x :: r.1, r.2)

/-- `JsonCarRepository.delete`. -/
def delete (cs : List Car) (carId : Nat) : List Car × Bool :=
  let remaining := cs.filter (fun c => !(c.id == carId))
  (remaining, decide (remaining.length < cs.length))

end JsonCarRepository

namespace BookingService

/-- `BookingService._dates_overlap`. -/
def datesOverlap (start1 end1 start2 end2 : Int) : Bool :=
  decide (start1 < end2) && decide (end1 > start2)

/-- `BookingService._is_car_available`: fetches the car's bookings in the
range via the store's range query, then returns false iff one of them is
Pending or Confirmed and overlaps the requested dates. -/
def isCarAvailable (s : RentalState) (carId : Nat)
    (startDate endDate : Int) : Bool :=
  let existingBookings :=
    JsonBookingRepository.findByCarAndDateRange s.bookings carId startDate endDate
  existingBookings.all (fun b =>
    !((b.status == BookingStatus.confirmed || b.status == BookingStatus.pending) &&
      datesOverlap startDate endDate b.start_date b.end_date))

/-- `BookingService.create_booking`.  `today`, `newId` and `createdAt`
stand for `date.today()`, `uuid4()` and `datetime.utcnow()`; the pydantic
validation of the constructed `Booking` is `bookingFieldsOk`. -/
def createBooking (today : Int) (newId : Nat) (createdAt : Int)
    (s : RentalState) (carId : Nat) (customerName customerEmail : String)
    (startDate endDate : Int) : Except String Booking × RentalState :=
  match JsonCarRepository.findById s.cars carId with
  | none => (Except.error "Car not found", s)
  | some car =>
    if isCarAvailable s carId startDate endDate then
      let days : Int := endDate - startDate
      let totalCost : ℚ := (days : ℚ) * car.daily_rate
      let booking : Booking :=
        { id := newId, car_id := carId, customer_name := customerName,
          customer_email := customerEmail, start_date := startDate,
          end_date := endDate, total_cost := totalCost,
          status := BookingStatus.pending, created_at := createdAt,
          updated_at := none }
      if bookingFieldsOk today booking then
        (Except.ok booking,
         { s with bookings := JsonBookingRepository.save s.bookings booking })
      else (Except.error "InvalidInput", s)
    else (Except.error "Car is not available for the selected dates", s)

/-- `BookingService.get_booking`: read-only, so the state comes back as is. -/
def getBooking (s : RentalState) (bookingId : Nat) :
    Except String Booking × RentalState :=
  match JsonBookingRepository.findById s.bookings bookingId with
  | none => (Except.error "Booking not found", s)
  | some b => (Except.ok b, s)

/-- `BookingService.cancel_booking`: fetches the booking (raising
"Booking not found" when absent), sets its status to Cancelled and
persists it through the store's `update`, returning whatever `update`
returned (an `Option`, as in the Python signature). -/
def cancelBooking (s : RentalState) (bookingId : Nat) :
    Except String (Option Booking) × RentalState :=
  match JsonBookingRepository.findById s.bookings bookingId with
  | none => (Except.error "Booking not found", s)
  | some b =>
    let cancelled := { b with status := BookingStatus.cancelled }
    let r := JsonBookingRepository.update s.bookings cancelled
    (Except.ok r.2, { s with bookings := r.1 })

/-- The loop body of `BookingService.list_available_cars_by_date`: skip
cars whose status is not Available, keep those with no conflicting
bookings. -/
def listAvailLoop (s : RentalState) (startDate endDate : Int) :
    List Car → List Car
  | [] => []
  | car :: rest =>
    if car.status == CarStatus.available then
      if isCarAvailable s car.id startDate endDate then
        car :: listAvailLoop s startDate endDate rest
      else listAvailLoop s startDate endDate rest
    else listAvailLoop s startDate endDate rest

/-- `BookingService.list_available_cars_by_date`: read-only. -/
def listAvailableCarsByDate (s : RentalState) (startDate endDate : Int) :
    List Car :=
  listAvailLoop s startDate endDate (JsonCarRepository.findAll s.cars)

end BookingService

namespace CarService

/-- `CarService.create_car` (pydantic validation as `carFieldsOk`). -/
def createCar (s : RentalState) (newId : Nat) (createdAt : Int)
    (brand model : String) (year : Int) (licensePlate : String)
    (dailyRate : ℚ) : Except String Car × RentalState :=
  let car : Car :=
    { id := newId, brand := brand, model := model, year := year,
      license_plate := licensePlate, daily_rate := dailyRate,
      status := CarStatus.available, created_at := createdAt,
      updated_at := none }
  if carFieldsOk car then
    (Except.ok car, { s with cars := JsonCarRepository.save s.cars car })
  else (Except.error "InvalidInput", s)

/-- `CarService.get_car`: read-only lookup. -/
def getCar (s : RentalState) (carId : Nat) : Option Car :=
  JsonCarRepository.findById s.cars carId

/-- `CarService.list_all_cars`. -/
def listAllCars (s : RentalState) : List Car :=
  JsonCarRepository.findAll s.cars

/-- `CarService.list_available_cars`. -/
def listAvailableCars (s : RentalState) : List Car :=
  (JsonCarRepository.findAll s.cars).filter
    (fun c => c.status == CarStatus.available)

/-- `CarService.update_car_status` (`now` stands for `datetime.utcnow()`). -/
def updateCarStatus (s : RentalState) (now : Int) (carId : Nat)
    (status : CarStatus) : Option Car × RentalState :=
  match JsonCarRepository.findById s.cars carId with
  | none => (none, s)
  | some car =>
    let car2 := { car with status := status, updated_at := some now }
    let r := JsonCarRepository.update s.cars car2
    (r.2, { s with cars := r.1 })

/-- `CarService.delete_car`. -/
def deleteCar (s : RentalState) (carId : Nat) : Bool × RentalState :=
  let r := JsonCarRepository.delete s.cars carId
  (r.2, { s with cars := r.1 })

end CarService

/-- A booking blocks availability iff its status is Pending or Confirmed
("active booking" in the spec's glossary). -/
def Booking.isActive (b : Booking) : Bool :=
  b.status == BookingStatus.pending || b.status == BookingStatus.confirmed

/-- Two bookings are compatible when, if they are for the same car and
both active, their `[start, end)` intervals do not overlap. -/
def bookingsCompatible (b1 b2 : Booking) : Prop :=
  b1.car_id = b2.car_id → b1.isActive = true → b2.isActive = true →
    BookingService.datesOverlap b1.start_date b1.end_date
      b2.start_date b2.end_date = false

instance (b1 b2 : Booking) : Decidable (bookingsCompatible b1 b2) := by
  unfold bookingsCompatible; infer_instance

/-- The core invariant: per car, the active bookings have pairwise
non-overlapping `[start, end)` intervals. -/
def noOverlapInvariant (s : RentalState) : Prop :=
  s.bookings.Pairwise bookingsCompatible

instance (s : RentalState) : Decidable (noOverlapInvariant s) := by
  unfold noOverlapInvariant; infer_instance

/-- Availability as the claim words it for the refinement comparison: keep
the car's bookings (no range pre-filter at the store) and let the
availability check itself do all the overlap filtering. -/
def isCarAvailableDirect (s : RentalState) (carId : Nat) (sd ed : Int) : Bool :=
  (s.bookings.filter (fun b => b.car_id == carId)).all (fun b =>
    !((b.status == BookingStatus.confirmed || b.status == BookingStatus.pending) &&
      BookingService.datesOverlap sd ed b.start_date b.end_date))

instance {ε α : Type} [DecidableEq ε] [DecidableEq α] :
    DecidableEq (Except ε α) := fun x y =>
  match x, y with
  | Except.ok a, Except.ok b =>
    if h : a = b then isTrue (by rw [h])
    else isFalse (by intro hc; cases hc; exact h rfl)
  | Except.ok _, Except.error _ => isFalse (by intro hc; cases hc)
  | Except.error _, Except.ok _ => isFalse (by intro hc; cases hc)
  | Except.error e, Except.error f =>
    if h : e = f then isTrue (by rw [h])
    else isFalse (by intro hc; cases hc; exact h rfl)

/-- A concrete car (rate 50) for instantiating the general theorems. -/
def sampleCar : Car :=
  { id := 1, brand := "Toyota", model := "Corolla", year := 2023,
    license_plate := "ABC123", daily_rate := 50,
    status := CarStatus.available, created_at := 0, updated_at := none }

/-- A concrete store holding only `sampleCar` and no bookings. -/
def sampleState : RentalState :=
  { cars := [sampleCar], bookings := [] }

/-- The booking produced by a 2-day request on `sampleState`. -/
def sampleBooking : Booking :=
  { id := 7, car_id := 1, customer_name := "John Doe",
    customer_email := "john", start_date := 10, end_date := 12,
    total_cost := 100, status := BookingStatus.pending, created_at := 0,
    updated_at := none }

/-- A store with two touching active bookings `[0,2)` and `[2,4)` on the
same car: it satisfies the invariant (half-open intervals). -/
def demoState : RentalState :=
  { cars := [sampleCar],
    bookings :=
      [{ id := 2, car_id := 1, customer_name := "A", customer_email := "a",
         start_date := 0, end_date := 2, total_cost := 100,
         status := BookingStatus.pending, created_at := 0,
         updated_at := none },
       { id := 3, car_id := 1, customer_name := "B", customer_email := "b",
         start_date := 2, end_date := 4, total_cost := 100,
         status := BookingStatus.confirmed, created_at := 0,
         updated_at := none }] }

/-- A concrete store with one Pending booking, for the cancel claims. -/
def cancelState : RentalState :=
  { cars := [sampleCar],
    bookings :=
      [{ id := 5, car_id := 1, customer_name := "C", customer_email := "c",
         start_date := 0, end_date := 2, total_cost := 100,
         status := BookingStatus.pending, created_at := 0,
         updated_at := none }] }

namespace Api

/-- `POST /bookings` in `src/infrastructure/api/v1/bookings.py`: 201 on
success; the `except ValueError` handler maps every domain failure -
"Car not found" included - to 400. -/
def createBookingStatus (today : Int) (newId : Nat) (createdAt : Int)
    (s : RentalState) (cid : Nat) (nm em : String) (sd ed : Int) : Nat :=
  match (BookingService.createBooking today newId createdAt s cid nm em
      sd ed).1 with
  | Except.ok _ => 201
  | Except.error _ => 400

/-- `GET /bookings/{id}`: 200 on success, `ValueError` mapped to 404. -/
def getBookingStatus (s : RentalState) (bookingId : Nat) : Nat :=
  match (BookingService.getBooking s bookingId).1 with
  | Except.ok _ => 200
  | Except.error _ => 404

/-- `PATCH /bookings/{id}/cancel`: 200 on success, `ValueError` → 404. -/
def cancelBookingStatus (s : RentalState) (bookingId : Nat) : Nat :=
  match (BookingService.cancelBooking s bookingId).1 with
  | Except.ok _ => 200
  | Except.error _ => 404

end Api

/-- A store whose car 1 already has a Pending booking on `[2,4)`. -/
def c3State : RentalState :=
  { cars := [sampleCar],
    bookings :=
      [{ id := 20, car_id := 1, customer_name := "P", customer_email := "p",
         start_date := 2, end_date := 4, total_cost := 100,
         status := BookingStatus.pending, created_at := 0,
         updated_at := none }] }

/-- A store whose car 1 has a Cancelled booking and a Pending booking on
the same range `[0,2)`: the invariant only constrains active bookings. -/
def c6State : RentalState :=
  { cars := [sampleCar],
    bookings :=
      [{ id := 30, car_id := 1, customer_name := "X", customer_email := "x",
         start_date := 0, end_date := 2, total_cost := 100,
         status := BookingStatus.cancelled, created_at := 0,
         updated_at := none },
       { id := 31, car_id := 1, customer_name := "Y", customer_email := "y",
         start_date := 0, end_date := 2, total_cost := 100,
         status := BookingStatus.pending, created_at := 0,
         updated_at := none }] }

theorem datesOverlap_comm (a b c d : Int) :
    BookingService.datesOverlap a b c d = BookingService.datesOverlap c d a b := by
  simp [BookingService.datesOverlap, Bool.and_comm]

theorem repoOverlap_eq_serviceOverlap (a b c d : Int) :
    JsonBookingRepository.datesOverlap a b c d =
      BookingService.datesOverlap a b c d := rfl

/-- `_is_car_available` returns true iff no Pending/Confirmed booking of
the car overlaps the requested range. -/
theorem isCarAvailable_iff (s : RentalState) (cid : Nat) (sd ed : Int) :
    BookingService.isCarAvailable s cid sd ed = true ↔
      ∀ b ∈ s.bookings, b.car_id = cid → b.isActive = true →
        BookingService.datesOverlap sd ed b.start_date b.end_date = false := by
  unfold BookingService.isCarAvailable JsonBookingRepository.findByCarAndDateRange
  simp only [List.all_eq_true, List.mem_filter, Bool.and_eq_true, beq_iff_eq,
    Bool.not_eq_true', Booking.isActive, Bool.or_eq_true,
    repoOverlap_eq_serviceOverlap]
  constructor
  · intro h b hb hcar hact
    cases hov : BookingService.datesOverlap sd ed b.start_date b.end_date
    · rfl
    · have := h b ⟨hb, hcar, hov⟩
      rw [hov] at this
      rcases hact with h1 | h1 <;> simp [h1] at this
  · intro h b hb
    rcases hb with ⟨hb, hcar, hov⟩
    cases hact : (b.status == BookingStatus.confirmed ||
        b.status == BookingStatus.pending)
    · simp
    · have hact2 : b.status = BookingStatus.pending ∨
          b.status = BookingStatus.confirmed := by
        rcases Bool.or_eq_true _ _ |>.mp hact with h1 | h1
        · exact Or.inr (by simpa using h1)
        · exact Or.inl (by simpa using h1)
      have := h b hb hcar hact2
      rw [this]
      simp

/-- C2: the overlap predicate is `startA < endB AND endA > startB`
(half-open semantics), symmetric on proper intervals, and false whenever
the intervals merely touch or are disjoint. -/
theorem datesOverlap_halfOpen_C2 :
    (∀ sa ea sb eb : Int,
        BookingService.datesOverlap sa ea sb eb = true ↔ (sa < eb ∧ ea > sb)) ∧
    (∀ s1 e1 s2 e2 : Int, s1 < e1 → s2 < e2 →
        BookingService.datesOverlap s1 e1 s2 e2 =
          BookingService.datesOverlap s2 e2 s1 e1) ∧
    (∀ s1 e1 s2 e2 : Int, s1 < e1 → s2 < e2 → (e1 ≤ s2 ∨ e2 ≤ s1) →
        BookingService.datesOverlap s1 e1 s2 e2 = false) := by
  refine ⟨?_, ?_, ?_⟩
  · intro sa ea sb eb
    simp [BookingService.datesOverlap]
  · intro s1 e1 s2 e2 _ _
    simp [BookingService.datesOverlap, Bool.and_comm]
  · intro s1 e1 s2 e2 h1 h2 h3
    simp only [BookingService.datesOverlap, Bool.and_eq_false_iff,
      decide_eq_false_iff_not]
    omega

/-- C10: the service's and the repository's overlap predicates agree on
every input, and consequently `_is_car_available` decides exactly as the
variant in which all overlap filtering is done by the availability check
itself rather than by the store's range query. -/
theorem overlapPredicates_agree_C10 :
    (∀ s1 e1 s2 e2 : Int,
        BookingService.datesOverlap s1 e1 s2 e2 =
          JsonBookingRepository.datesOverlap s1 e1 s2 e2) ∧
    (∀ (s : RentalState) (cid : Nat) (sd ed : Int),
        BookingService.isCarAvailable s cid sd ed =
          isCarAvailableDirect s cid sd ed) := by
  refine ⟨fun _ _ _ _ => rfl, ?_⟩
  intro s cid sd ed
  rw [Bool.eq_iff_iff]
  unfold BookingService.isCarAvailable isCarAvailableDirect
      JsonBookingRepository.findByCarAndDateRange
  simp only [List.all_eq_true, List.mem_filter, Bool.and_eq_true, beq_iff_eq,
    repoOverlap_eq_serviceOverlap]
  constructor
  · intro h b hb
    rcases hb with ⟨hb, hcar⟩
    cases hov : BookingService.datesOverlap sd ed b.start_date b.end_date
    · simp [hov]
    · have := h b ⟨hb, hcar, hov⟩
      rw [hov] at this
      exact this
  · intro h b hb
    rcases hb with ⟨hb, hcar, _⟩
    exact h b ⟨hb, hcar⟩

/-- C4: a successful `create_booking` returns and persists a booking whose
total cost is (whole days between the dates) times the car's daily rate,
whose status is Pending, leaves the car list untouched, and appends the
booking to the store; concretely, a 2-day booking at daily rate 50 costs
exactly 100. -/
theorem createBooking_cost_C4 :
    (BookingService.createBooking 0 7 0 sampleState 1 "John Doe" "john" 10 12 =
        (Except.ok sampleBooking,
         { cars := [sampleCar], bookings := [sampleBooking] }) ∧
      sampleBooking.total_cost = 100 ∧
      sampleBooking.status = BookingStatus.pending) ∧
    (∀ (s : RentalState) (today : Int) (newId : Nat) (createdAt : Int)
        (cid : Nat) (nm em : String) (sd ed : Int) (b : Booking)
        (s2 : RentalState),
      BookingService.createBooking today newId createdAt s cid nm em sd ed =
          (Except.ok b, s2) →
      ∃ car, JsonCarRepository.findById s.cars cid = some car ∧
        b.total_cost = ((ed - sd : Int) : ℚ) * car.daily_rate ∧
        b.status = BookingStatus.pending ∧
        s2.cars = s.cars ∧
        s2.bookings = s.bookings ++ [b]) := by
  refine ⟨⟨?_, by norm_num [sampleBooking], by decide⟩, ?_⟩
  · norm_num [BookingService.createBooking, sampleState, sampleCar,
      sampleBooking, JsonCarRepository.findById, BookingService.isCarAvailable,
      JsonBookingRepository.findByCarAndDateRange, bookingFieldsOk,
      JsonBookingRepository.save, List.find?, List.filter]
    decide
  intro s today newId createdAt cid nm em sd ed b s2 h
  unfold BookingService.createBooking at h
  cases hfind : JsonCarRepository.findById s.cars cid with
  | none =>
    rw [hfind] at h
    simp at h
  | some car =>
    rw [hfind] at h
    simp only [] at h
    by_cases hav : BookingService.isCarAvailable s cid sd ed = true
    · rw [if_pos hav] at h
      by_cases hok : bookingFieldsOk today
          { id := newId, car_id := cid, customer_name := nm,
            customer_email := em, start_date := sd, end_date := ed,
            total_cost := ((ed - sd : Int) : ℚ) * car.daily_rate,
            status := BookingStatus.pending, created_at := createdAt,
            updated_at := none } = true
      · rw [if_pos hok] at h
        rw [Prod.mk.injEq] at h
        obtain ⟨h1, h2⟩ := h
        have hb : b =
            { id := newId, car_id := cid, customer_name := nm,
              customer_email := em, start_date := sd, end_date := ed,
              total_cost := ((ed - sd : Int) : ℚ) * car.daily_rate,
              status := BookingStatus.pending, created_at := createdAt,
              updated_at := none } := by
          cases h1
          rfl
        refine ⟨car, rfl, ?_, ?_, ?_, ?_⟩
        · rw [hb]
        · rw [hb]
        · rw [← h2]
        · rw [← h2, hb]
          rfl
      · rw [if_neg hok] at h
        simp at h
    · rw [if_neg hav] at h
      simp at h

/-- C5: `create_booking` on a car id absent from the Car Store fails with
"Car not found" and returns the state unchanged (no write to either
store). -/
theorem createBooking_notFound_C5 :
    (JsonCarRepository.findById sampleState.cars 99 = none ∧
      BookingService.createBooking 0 1 0 sampleState 99 "n" "e" 10 12 =
        (Except.error "Car not found", sampleState)) ∧
    (∀ (s : RentalState) (today : Int) (newId : Nat) (createdAt : Int)
        (cid : Nat) (nm em : String) (sd ed : Int),
      JsonCarRepository.findById s.cars cid = none →
      BookingService.createBooking today newId createdAt s cid nm em sd ed =
        (Except.error "Car not found", s)) := by
  refine ⟨⟨by rfl, by rfl⟩, ?_⟩
  intro s today newId createdAt cid nm em sd ed hfind
  unfold BookingService.createBooking
  rw [hfind]

/-- `find?` hits: the store's `update` replaces exactly the first record
carrying the id, leaving everything else in place. -/
theorem update_decomp (l : List Booking) (bookingId : Nat) (b b' : Booking)
    (hfind : l.find? (fun x => x.id == bookingId) = some b)
    (hid : b'.id = b.id) :
    ∃ l1 l2, l = l1 ++ b :: l2 ∧
      (JsonBookingRepository.update l b').1 = l1 ++ b' :: l2 ∧
      (JsonBookingRepository.update l b').2 = some b' ∧
      ∀ x ∈ l1, (x.id == bookingId) = false := by
  induction l with
  | nil => simp [List.find?] at hfind
  | cons x xs ih =>
    by_cases hx : (x.id == bookingId) = true
    · have hxb : x = b := by
        simp only [List.find?_cons, hx] at hfind
        exact Option.some.inj hfind
      have hcond : (x.id == b'.id) = true := by
        rw [hid, hxb]
        exact beq_self_eq_true _
      refine ⟨[], xs, by simp [hxb], ?_, ?_, by simp⟩
      · simp [JsonBookingRepository.update, hcond]
      · simp [JsonBookingRepository.update, hcond]
    · have hx2 : (x.id == bookingId) = false := by
        cases h2 : (x.id == bookingId)
        · rfl
        · exact absurd h2 hx
      simp only [List.find?_cons, hx2] at hfind
      obtain ⟨l1, l2, hdec, hupd, hres, hl1⟩ := ih hfind
      have hbid : (b.id == bookingId) = true := by
        have h3 := List.find?_some hfind
        simpa using h3
      have hxid : (x.id == b'.id) = false := by
        rw [hid]
        have hb2 : b.id = bookingId := by simpa using hbid
        rw [hb2]
        exact hx2
      refine ⟨x :: l1, l2, by simp [hdec], ?_, ?_, ?_⟩
      · simp [JsonBookingRepository.update, hxid, hupd]
      · simp [JsonBookingRepository.update, hxid, hres]
      · intro y hy
        rcases List.mem_cons.mp hy with rfl | hy2
        · exact hx2
        · exact hl1 y hy2

/-- Appending a booking compatible with every existing one keeps the
pairwise no-overlap property. -/
theorem pairwise_append_single (l : List Booking) (b : Booking)
    (hl : l.Pairwise bookingsCompatible)
    (hcomp : ∀ x ∈ l, bookingsCompatible x b) :
    (l ++ [b]).Pairwise bookingsCompatible := by
  rw [List.pairwise_append]
  refine ⟨hl, List.pairwise_singleton _ _, fun x hx y hy => ?_⟩
  rcases List.mem_singleton.mp hy with rfl
  exact hcomp x hx

/-- Replacing one booking by an inactive one keeps the pairwise
no-overlap property. -/
theorem pairwise_replace_inactive (l1 l2 : List Booking) (b b' : Booking)
    (hp : (l1 ++ b :: l2).Pairwise bookingsCompatible)
    (hb' : b'.isActive = false) :
    (l1 ++ b' :: l2).Pairwise bookingsCompatible := by
  rw [List.pairwise_append] at hp ⊢
  obtain ⟨h1, h2, h12⟩ := hp
  rw [List.pairwise_cons] at h2 ⊢
  refine ⟨h1, ⟨fun y _ hcar hact => ?_, h2.2⟩, fun x hx y hy => ?_⟩
  · rw [hb'] at hact
    cases hact
  · rcases List.mem_cons.mp hy with rfl | hy2
    · intro hcar _ hact
      rw [hb'] at hact
      cases hact
    · exact h12 x hx y (List.mem_cons_of_mem _ hy2)

/-- States with the same booking list satisfy the invariant together. -/
theorem inv_congr_bookings (s1 s2 : RentalState)
    (h : s2.bookings = s1.bookings) (hs : noOverlapInvariant s1) :
    noOverlapInvariant s2 := by
  unfold noOverlapInvariant at hs ⊢
  rw [h]
  exact hs

theorem createBooking_preserves (s : RentalState) (hs : noOverlapInvariant s)
    (today : Int) (newId : Nat) (createdAt : Int) (cid : Nat)
    (nm em : String) (sd ed : Int) :
    noOverlapInvariant
      (BookingService.createBooking today newId createdAt s cid nm em sd ed).2 := by
  unfold BookingService.createBooking
  cases hfind : JsonCarRepository.findById s.cars cid with
  | none => exact hs
  | some car =>
    simp only []
    by_cases hav : BookingService.isCarAvailable s cid sd ed = true
    · rw [if_pos hav]
      by_cases hok : bookingFieldsOk today
          { id := newId, car_id := cid, customer_name := nm,
            customer_email := em, start_date := sd, end_date := ed,
            total_cost := ((ed - sd : Int) : ℚ) * car.daily_rate,
            status := BookingStatus.pending, created_at := createdAt,
            updated_at := none } = true
      · rw [if_pos hok]
        show (s.bookings ++
            [({ id := newId, car_id := cid, customer_name := nm,
                customer_email := em, start_date := sd, end_date := ed,
                total_cost := ((ed - sd : Int) : ℚ) * car.daily_rate,
                status := BookingStatus.pending, created_at := createdAt,
                updated_at := none } : Booking)]).Pairwise bookingsCompatible
        refine pairwise_append_single _ _ hs fun x hx hcar hactx _ => ?_
        have := (isCarAvailable_iff s cid sd ed).mp hav x hx hcar hactx
        rw [datesOverlap_comm] at this
        exact this
      · rw [if_neg hok]
        exact hs
    · rw [if_neg hav]
      exact hs

theorem cancelBooking_preserves (s : RentalState) (hs : noOverlapInvariant s)
    (bid : Nat) :
    noOverlapInvariant (BookingService.cancelBooking s bid).2 := by
  unfold BookingService.cancelBooking
  cases hfind : JsonBookingRepository.findById s.bookings bid with
  | none => exact hs
  | some b =>
    simp only []
    obtain ⟨l1, l2, hdec, hupd, -, -⟩ :=
      update_decomp s.bookings bid b { b with status := BookingStatus.cancelled }
        hfind rfl
    show ((JsonBookingRepository.update s.bookings
        { b with status := BookingStatus.cancelled }).1).Pairwise bookingsCompatible
    rw [hupd]
    unfold noOverlapInvariant at hs
    rw [hdec] at hs
    exact pairwise_replace_inactive l1 l2 b _ hs rfl

theorem getBooking_state (s : RentalState) (bid : Nat) :
    (BookingService.getBooking s bid).2 = s := by
  unfold BookingService.getBooking
  cases JsonBookingRepository.findById s.bookings bid <;> rfl

theorem createCar_bookings (s : RentalState) (newId : Nat) (createdAt : Int)
    (brand model : String) (year : Int) (lp : String) (dr : ℚ) :
    (CarService.createCar s newId createdAt brand model year lp dr).2.bookings =
      s.bookings := by
  simp only [CarService.createCar]
  split <;> rfl

theorem updateCarStatus_bookings (s : RentalState) (now : Int) (cid : Nat)
    (st : CarStatus) :
    (CarService.updateCarStatus s now cid st).2.bookings = s.bookings := by
  unfold CarService.updateCarStatus
  cases JsonCarRepository.findById s.cars cid <;> rfl

theorem deleteCar_bookings (s : RentalState) (cid : Nat) :
    (CarService.deleteCar s cid).2.bookings = s.bookings := rfl

/-- C1: every service operation preserves the per-car no-overlap
invariant on Pending/Confirmed bookings (`get_booking` and the pure list
operations return the state untouched; the car operations never touch the
booking store), and a successful `create_booking` appends a Pending
booking overlapping no active booking of the same car.  `demoState`
instantiates the invariant concretely. -/
theorem invariantPreservation_C1 :
    noOverlapInvariant demoState ∧
    (∀ s : RentalState, noOverlapInvariant s →
      (∀ (today : Int) (newId : Nat) (createdAt : Int) (cid : Nat)
          (nm em : String) (sd ed : Int),
        noOverlapInvariant
          (BookingService.createBooking today newId createdAt s cid nm em
            sd ed).2) ∧
      (∀ bid, noOverlapInvariant (BookingService.cancelBooking s bid).2) ∧
      (∀ bid, (BookingService.getBooking s bid).2 = s) ∧
      (∀ (newId : Nat) (createdAt : Int) (br mo : String) (yr : Int)
          (lp : String) (dr : ℚ),
        noOverlapInvariant
          (CarService.createCar s newId createdAt br mo yr lp dr).2) ∧
      (∀ (now : Int) (cid : Nat) (st : CarStatus),
        noOverlapInvariant (CarService.updateCarStatus s now cid st).2) ∧
      (∀ cid, noOverlapInvariant (CarService.deleteCar s cid).2) ∧
      (∀ (today : Int) (newId : Nat) (createdAt : Int) (cid : Nat)
          (nm em : String) (sd ed : Int) (b : Booking) (s2 : RentalState),
        BookingService.createBooking today newId createdAt s cid nm em sd ed =
            (Except.ok b, s2) →
        b.status = BookingStatus.pending ∧
        s2.bookings = s.bookings ++ [b] ∧
        ∀ b0 ∈ s.bookings, b0.car_id = b.car_id → b0.isActive = true →
          BookingService.datesOverlap b.start_date b.end_date
            b0.start_date b0.end_date = false)) := by
  refine ⟨by decide, fun s hs => ⟨?_, ?_, ?_, ?_, ?_, ?_, ?_⟩⟩
  · intro today newId createdAt cid nm em sd ed
    exact createBooking_preserves s hs today newId createdAt cid nm em sd ed
  · intro bid
    exact cancelBooking_preserves s hs bid
  · intro bid
    exact getBooking_state s bid
  · intro newId createdAt br mo yr lp dr
    exact inv_congr_bookings s _ (createCar_bookings s newId createdAt br mo yr lp dr) hs
  · intro now cid st
    exact inv_congr_bookings s _ (updateCarStatus_bookings s now cid st) hs
  · intro cid
    exact inv_congr_bookings s _ (deleteCar_bookings s cid) hs
  · intro today newId createdAt cid nm em sd ed b s2 h
    unfold BookingService.createBooking at h
    cases hfind : JsonCarRepository.findById s.cars cid with
    | none =>
      rw [hfind] at h
      simp at h
    | some car =>
      rw [hfind] at h
      simp only [] at h
      by_cases hav : BookingService.isCarAvailable s cid sd ed = true
      · rw [if_pos hav] at h
        by_cases hok : bookingFieldsOk today
            { id := newId, car_id := cid, customer_name := nm,
              customer_email := em, start_date := sd, end_date := ed,
              total_cost := ((ed - sd : Int) : ℚ) * car.daily_rate,
              status := BookingStatus.pending, created_at := createdAt,
              updated_at := none } = true
        · rw [if_pos hok] at h
          rw [Prod.mk.injEq] at h
          obtain ⟨h1, h2⟩ := h
          have hb : b =
              { id := newId, car_id := cid, customer_name := nm,
                customer_email := em, start_date := sd, end_date := ed,
                total_cost := ((ed - sd : Int) : ℚ) * car.daily_rate,
                status := BookingStatus.pending, created_at := createdAt,
                updated_at := none } := by
            cases h1
            rfl
          refine ⟨by rw [hb], by rw [← h2, hb]; rfl, ?_⟩
          intro b0 hb0 hcar hact
          have hcar2 : b0.car_id = cid := by rw [hcar, hb]
          have := (isCarAvailable_iff s cid sd ed).mp hav b0 hb0 hcar2 hact
          rw [hb]
          exact this
        · rw [if_neg hok] at h
          simp at h
      · rw [if_neg hav] at h
        simp at h

/-- `find?` skips a prefix of non-matching records and stops at the first
match. -/
theorem find?_middle (l1 l2 : List Booking) (y : Booking) (bookingId : Nat)
    (h1 : ∀ x ∈ l1, (x.id == bookingId) = false)
    (hy : (y.id == bookingId) = true) :
    (l1 ++ y :: l2).find? (fun x => x.id == bookingId) = some y := by
  induction l1 with
  | nil => simp [List.find?_cons, hy]
  | cons a as ih =>
    have ha := h1 a (List.mem_cons_self _ _)
    simp only [List.cons_append, List.find?_cons, ha]
    exact ih fun x hx => h1 x (List.mem_cons_of_mem _ hx)

/-- C7: `cancel_booking` fails with "Booking not found" exactly when the
id is absent (leaving the state untouched); otherwise it returns the
found booking with only its status switched to Cancelled, persists it in
place through the store's `update` (never erroring, even on an already
Cancelled or Completed booking), and cancelling twice produces the same
state as cancelling once. -/
theorem cancelBooking_C7 :
    ((BookingService.cancelBooking cancelState 9).1 =
        Except.error "Booking not found" ∧
      (BookingService.cancelBooking cancelState 9).2 = cancelState ∧
      (BookingService.cancelBooking cancelState 5).1 =
        Except.ok (some
          { id := 5, car_id := 1, customer_name := "C", customer_email := "c",
            start_date := 0, end_date := 2, total_cost := 100,
            status := BookingStatus.cancelled, created_at := 0,
            updated_at := none })) ∧
    (∀ (s : RentalState) (bid : Nat),
      ((BookingService.cancelBooking s bid).1 =
          Except.error "Booking not found" ↔
        JsonBookingRepository.findById s.bookings bid = none) ∧
      (JsonBookingRepository.findById s.bookings bid = none →
        (BookingService.cancelBooking s bid).2 = s)) ∧
    (∀ (s : RentalState) (bid : Nat) (b : Booking),
      JsonBookingRepository.findById s.bookings bid = some b →
      (BookingService.cancelBooking s bid).1 =
        Except.ok (some { b with status := BookingStatus.cancelled }) ∧
      (BookingService.cancelBooking s bid).2.cars = s.cars ∧
      ∃ l1 l2, s.bookings = l1 ++ b :: l2 ∧
        (BookingService.cancelBooking s bid).2.bookings =
          l1 ++ { b with status := BookingStatus.cancelled } :: l2) ∧
    (∀ (s : RentalState) (bid : Nat),
      (BookingService.cancelBooking
        (BookingService.cancelBooking s bid).2 bid).2 =
        (BookingService.cancelBooking s bid).2) := by
  refine ⟨⟨by decide, by decide, by decide⟩, ?_, ?_, ?_⟩
  · intro s bid
    cases hfind : JsonBookingRepository.findById s.bookings bid with
    | none => simp [BookingService.cancelBooking, hfind]
    | some b => simp [BookingService.cancelBooking, hfind]
  · intro s bid b hfind
    obtain ⟨l1, l2, hdec, hupd, hres, hl1⟩ :=
      update_decomp s.bookings bid b { b with status := BookingStatus.cancelled }
        hfind rfl
    refine ⟨?_, ?_, l1, l2, hdec, ?_⟩
    · simp [BookingService.cancelBooking, hfind, hres]
    · simp [BookingService.cancelBooking, hfind]
    · simp [BookingService.cancelBooking, hfind, hupd]
  · intro s bid
    cases hfind : JsonBookingRepository.findById s.bookings bid with
    | none =>
      have hstate : (BookingService.cancelBooking s bid).2 = s := by
        simp [BookingService.cancelBooking, hfind]
      rw [hstate, hstate]
    | some b =>
      obtain ⟨l1, l2, hdec, hupd, hres, hl1⟩ :=
        update_decomp s.bookings bid b
          { b with status := BookingStatus.cancelled } hfind rfl
      have hstate : (BookingService.cancelBooking s bid).2 =
          { s with bookings :=
              l1 ++ { b with status := BookingStatus.cancelled } :: l2 } := by
        simp [BookingService.cancelBooking, hfind, hupd]
      rw [hstate]
      have hbid : (b.id == bid) = true := by
        have h3 := List.find?_some hfind
        simpa using h3
      have hfind2 : JsonBookingRepository.findById
          (l1 ++ { b with status := BookingStatus.cancelled } :: l2) bid =
          some { b with status := BookingStatus.cancelled } :=
        find?_middle l1 l2 _ bid hl1 hbid
      obtain ⟨m1, m2, hdec2, hupd2, hres2, hl12⟩ :=
        update_decomp (l1 ++ { b with status := BookingStatus.cancelled } :: l2)
          bid { b with status := BookingStatus.cancelled }
          { b with status := BookingStatus.cancelled } hfind2 rfl
      have hsame : (JsonBookingRepository.update
          (l1 ++ { b with status := BookingStatus.cancelled } :: l2)
          { b with status := BookingStatus.cancelled }).1 =
          l1 ++ { b with status := BookingStatus.cancelled } :: l2 := by
        rw [hupd2, ← hdec2]
      simp [BookingService.cancelBooking, hfind2, hsame]

theorem listAvailLoop_eq_filter (s : RentalState) (sd ed : Int)
    (l : List Car) :
    BookingService.listAvailLoop s sd ed l =
      l.filter (fun c => c.status == CarStatus.available &&
        BookingService.isCarAvailable s c.id sd ed) := by
  induction l with
  | nil => rfl
  | cons c cs ih =>
    unfold BookingService.listAvailLoop
    cases h1 : (c.status == CarStatus.available) <;>
      cases h2 : BookingService.isCarAvailable s c.id sd ed <;>
        simp [List.filter_cons, h1, h2, ih]

/-- C8: `list_available_cars_by_date` returns exactly the cars of the
store's listing that are Available and pass `_is_car_available`, as a
sublist of that listing (so in the same relative order), and being a pure
function of the state it performs no write.  Concretely on `demoState`:
the car is blocked for `[1,3)` and free for `[4,6)`. -/
theorem listAvailableCars_C8 :
    (BookingService.listAvailableCarsByDate demoState 1 3 = [] ∧
      BookingService.listAvailableCarsByDate demoState 4 6 = [sampleCar]) ∧
    (∀ (s : RentalState) (sd ed : Int),
      (BookingService.listAvailableCarsByDate s sd ed).Sublist s.cars) ∧
    (∀ (s : RentalState) (sd ed : Int) (c : Car),
      c ∈ BookingService.listAvailableCarsByDate s sd ed ↔
        (c ∈ s.cars ∧ c.status = CarStatus.available ∧
          BookingService.isCarAvailable s c.id sd ed = true)) := by
  refine ⟨⟨by decide, by decide⟩, ?_, ?_⟩
  · intro s sd ed
    unfold BookingService.listAvailableCarsByDate
    rw [listAvailLoop_eq_filter]
    exact List.filter_sublist _
  · intro s sd ed c
    unfold BookingService.listAvailableCarsByDate
    rw [listAvailLoop_eq_filter]
    simp [List.mem_filter, JsonCarRepository.findAll]

theorem createBooking_carMissing (s : RentalState) (today : Int)
    (newId : Nat) (createdAt : Int) (cid : Nat) (nm em : String)
    (sd ed : Int)
    (hfind : JsonCarRepository.findById s.cars cid = none) :
    BookingService.createBooking today newId createdAt s cid nm em sd ed =
      (Except.error "Car not found", s) := by
  unfold BookingService.createBooking
  rw [hfind]

/-- C9 counterexample: a create-booking request naming a missing car gets
HTTP 400 from the transport layer, not 404. -/
theorem apiCreateStatus_C9_counterexample :
    JsonCarRepository.findById sampleState.cars 99 = none ∧
    Api.createBookingStatus 0 1 0 sampleState 99 "n" "e" 10 12 = 400 ∧
    Api.createBookingStatus 0 1 0 sampleState 99 "n" "e" 10 12 ≠ 404 := by
  refine ⟨by rfl, by rfl, by decide⟩

/-- C9 amended: the create-booking endpoint maps every `ValueError` -
including the "Car not found" case - to 400; only the get-booking and
cancel-booking endpoints map failures to 404. -/
theorem apiCreateStatus_C9 :
    (Api.createBookingStatus 0 1 0 sampleState 99 "n" "e" 10 12 = 400) ∧
    (∀ (s : RentalState) (today : Int) (newId : Nat) (createdAt : Int)
        (cid : Nat) (nm em : String) (sd ed : Int),
      JsonCarRepository.findById s.cars cid = none →
      Api.createBookingStatus today newId createdAt s cid nm em sd ed = 400) ∧
    (∀ (s : RentalState) (bid : Nat),
      JsonBookingRepository.findById s.bookings bid = none →
      Api.getBookingStatus s bid = 404 ∧ Api.cancelBookingStatus s bid = 404) := by
  refine ⟨by rfl, ?_, ?_⟩
  · intro s today newId createdAt cid nm em sd ed hfind
    unfold Api.createBookingStatus
    rw [createBooking_carMissing s today newId createdAt cid nm em sd ed hfind]
  · intro s bid hfind
    constructor
    · unfold Api.getBookingStatus BookingService.getBooking
      rw [hfind]
    · unfold Api.cancelBookingStatus BookingService.cancelBooking
      rw [hfind]

/-- What a successful `create_booking` implies: the car was found, the
dates were available, the constructed Pending booking passed validation
and was appended to the store. -/
theorem createBooking_ok_elim (s : RentalState) (today : Int) (newId : Nat)
    (createdAt : Int) (cid : Nat) (nm em : String) (sd ed : Int)
    (b : Booking) (s2 : RentalState)
    (h : BookingService.createBooking today newId createdAt s cid nm em sd ed =
      (Except.ok b, s2)) :
    ∃ car, JsonCarRepository.findById s.cars cid = some car ∧
      BookingService.isCarAvailable s cid sd ed = true ∧
      bookingFieldsOk today b = true ∧
      b = { id := newId, car_id := cid, customer_name := nm,
            customer_email := em, start_date := sd, end_date := ed,
            total_cost := ((ed - sd : Int) : ℚ) * car.daily_rate,
            status := BookingStatus.pending, created_at := createdAt,
            updated_at := none } ∧
      s2 = { s with bookings := s.bookings ++ [b] } := by
  unfold BookingService.createBooking at h
  cases hfind : JsonCarRepository.findById s.cars cid with
  | none =>
    rw [hfind] at h
    simp at h
  | some car =>
    rw [hfind] at h
    simp only [] at h
    by_cases hav : BookingService.isCarAvailable s cid sd ed = true
    · rw [if_pos hav] at h
      by_cases hok : bookingFieldsOk today
          { id := newId, car_id := cid, customer_name := nm,
            customer_email := em, start_date := sd, end_date := ed,
            total_cost := ((ed - sd : Int) : ℚ) * car.daily_rate,
            status := BookingStatus.pending, created_at := createdAt,
            updated_at := none } = true
      · rw [if_pos hok] at h
        rw [Prod.mk.injEq] at h
        obtain ⟨h1, h2⟩ := h
        have hb : b =
            { id := newId, car_id := cid, customer_name := nm,
              customer_email := em, start_date := sd, end_date := ed,
              total_cost := ((ed - sd : Int) : ℚ) * car.daily_rate,
              status := BookingStatus.pending, created_at := createdAt,
              updated_at := none } := by
          cases h1
          rfl
        refine ⟨car, rfl, hav, ?_, hb, ?_⟩
        · rw [hb]
          exact hok
        · rw [← h2, hb]
          rfl
      · rw [if_neg hok] at h
        simp at h
    · rw [if_neg hav] at h
      simp at h

/-- The success path of `create_booking`, spelled forwards. -/
theorem createBooking_ok_intro (s : RentalState) (today : Int) (newId : Nat)
    (createdAt : Int) (cid : Nat) (nm em : String) (sd ed : Int) (car : Car)
    (hfind : JsonCarRepository.findById s.cars cid = some car)
    (hav : BookingService.isCarAvailable s cid sd ed = true)
    (hok : bookingFieldsOk today
      { id := newId, car_id := cid, customer_name := nm,
        customer_email := em, start_date := sd, end_date := ed,
        total_cost := ((ed - sd : Int) : ℚ) * car.daily_rate,
        status := BookingStatus.pending, created_at := createdAt,
        updated_at := none } = true) :
    BookingService.createBooking today newId createdAt s cid nm em sd ed =
      (Except.ok
        ({ id := newId, car_id := cid, customer_name := nm,
           customer_email := em, start_date := sd, end_date := ed,
           total_cost := ((ed - sd : Int) : ℚ) * car.daily_rate,
           status := BookingStatus.pending, created_at := createdAt,
           updated_at := none } : Booking),
       { s with bookings := s.bookings ++
          [({ id := newId, car_id := cid, customer_name := nm,
              customer_email := em, start_date := sd, end_date := ed,
              total_cost := ((ed - sd : Int) : ℚ) * car.daily_rate,
              status := BookingStatus.pending, created_at := createdAt,
              updated_at := none } : Booking)] }) := by
  unfold BookingService.createBooking
  rw [hfind]
  simp only []
  rw [if_pos hav, if_pos hok]
  rfl

/-- The conflict path of `create_booking`: car found but dates taken. -/
theorem createBooking_conflict (s : RentalState) (today : Int) (newId : Nat)
    (createdAt : Int) (cid : Nat) (nm em : String) (sd ed : Int) (car : Car)
    (hfind : JsonCarRepository.findById s.cars cid = some car)
    (hav : BookingService.isCarAvailable s cid sd ed = false) :
    BookingService.createBooking today newId createdAt s cid nm em sd ed =
      (Except.error "Car is not available for the selected dates", s) := by
  unfold BookingService.createBooking
  rw [hfind]
  simp only []
  rw [if_neg (by rw [hav]; exact Bool.false_ne_true)]

theorem bookingFieldsOk_intro (today : Int) (b : Booking)
    (h1 : 1 ≤ b.customer_name.length) (h2 : b.customer_name.length ≤ 100)
    (h3 : 1 ≤ b.customer_email.length) (h4 : b.customer_email.length ≤ 100)
    (h5 : 0 < b.total_cost) (h6 : b.start_date < b.end_date)
    (h7 : today ≤ b.start_date) : bookingFieldsOk today b = true := by
  unfold bookingFieldsOk
  simp [h1, h2, h3, h4, h5, h6, h7]

/-- C3 counterexample: over a state that satisfies the invariant but
already holds an active `[2,4)` booking, `create_booking` for `[0,2)`
succeeds and the immediately following `create_booking` for `[2,4)` on
the same car fails with the conflict error - so the claim's first part is
false for arbitrary invariant-satisfying states. -/
theorem boundaryBooking_C3_counterexample :
    noOverlapInvariant c3State ∧
    (∃ b1 s1, BookingService.createBooking 0 21 0 c3State 1 "N" "n" 0 2 =
      (Except.ok b1, s1)) ∧
    (BookingService.createBooking 0 22 0
        (BookingService.createBooking 0 21 0 c3State 1 "N" "n" 0 2).2
        1 "N" "n" 2 4).1 =
      Except.error "Car is not available for the selected dates" := by
  have h1 := createBooking_ok_intro c3State 0 21 0 1 "N" "n" 0 2 sampleCar
    (by rfl) (by decide)
    (bookingFieldsOk_intro 0 _ (by decide) (by decide) (by decide) (by decide)
      (by norm_num [sampleCar]) (by decide) (by decide))
  refine ⟨by decide, ⟨_, _, h1⟩, ?_⟩
  rw [h1]
  rw [createBooking_conflict _ 0 22 0 1 "N" "n" 2 4 sampleCar (by rfl)
    (by decide)]

/-- C3 amended: touching boundaries never conflict - after a successful
`create_booking` for `[A,B)`, a `create_booking` for `[B,C)` on the same
car succeeds provided `[B,C)` was already available in the pre-state and
the second request's fields are valid; and after a successful
`create_booking` for `[A,C)`, a `create_booking` for `[B,D)` on the same
car with `A<B<C<D` fails with the conflict error and writes nothing. -/
theorem boundaryBooking_C3 :
    (∃ b2 s2, BookingService.createBooking 0 32 0
        (BookingService.createBooking 0 31 0 sampleState 1 "N" "n" 0 2).2
        1 "N" "n" 2 4 = (Except.ok b2, s2)) ∧
    (∀ (s : RentalState) (today : Int) (n1 n2 : Nat) (t1 t2 : Int)
        (cid : Nat) (nm1 em1 nm2 em2 : String) (A B C : Int) (b1 : Booking)
        (s1 : RentalState) (car : Car),
      JsonCarRepository.findById s.cars cid = some car →
      0 < car.daily_rate →
      BookingService.isCarAvailable s cid B C = true →
      BookingService.createBooking today n1 t1 s cid nm1 em1 A B =
        (Except.ok b1, s1) →
      1 ≤ nm2.length → nm2.length ≤ 100 →
      1 ≤ em2.length → em2.length ≤ 100 →
      B < C → today ≤ B →
      ∃ b2 s2, BookingService.createBooking today n2 t2 s1 cid nm2 em2 B C =
        (Except.ok b2, s2)) ∧
    (∀ (s : RentalState) (today : Int) (n1 n2 : Nat) (t1 t2 : Int)
        (cid : Nat) (nm1 em1 nm2 em2 : String) (A B C D : Int) (b1 : Booking)
        (s1 : RentalState),
      A < B → B < C → C < D →
      BookingService.createBooking today n1 t1 s cid nm1 em1 A C =
        (Except.ok b1, s1) →
      BookingService.createBooking today n2 t2 s1 cid nm2 em2 B D =
        (Except.error "Car is not available for the selected dates", s1)) := by
  refine ⟨?_, ?_, ?_⟩
  · have h1 := createBooking_ok_intro sampleState 0 31 0 1 "N" "n" 0 2
      sampleCar (by rfl) (by decide)
      (bookingFieldsOk_intro 0 _ (by decide) (by decide) (by decide)
        (by decide) (by norm_num [sampleCar]) (by decide) (by decide))
    rw [h1]
    exact ⟨_, _, createBooking_ok_intro _ 0 32 0 1 "N" "n" 2 4 sampleCar
      (by rfl) (by decide)
      (bookingFieldsOk_intro 0 _ (by decide) (by decide) (by decide)
        (by decide) (by norm_num [sampleCar]) (by decide) (by decide))⟩
  · intro s today n1 n2 t1 t2 cid nm1 em1 nm2 em2 A B C b1 s1 car hfind
      hrate hav0 h1 hn1 hn2 he1 he2 hBC htoday
    obtain ⟨car1, hfind1, hav1, hok1, hb1, hs1⟩ :=
      createBooking_ok_elim _ _ _ _ _ _ _ _ _ _ _ h1
    have hcar : car1 = car := by
      rw [hfind] at hfind1
      exact (Option.some.inj hfind1).symm
    have hfind2 : JsonCarRepository.findById s1.cars cid = some car := by
      rw [hs1, ← hcar]
      exact hfind1
    have hav2 : BookingService.isCarAvailable s1 cid B C = true := by
      rw [isCarAvailable_iff]
      intro x hx hxcar hxact
      rw [hs1] at hx
      rcases List.mem_append.mp hx with hx1 | hx2
      · exact (isCarAvailable_iff s cid B C).mp hav0 x hx1 hxcar hxact
      · rcases List.mem_singleton.mp hx2 with rfl
        rw [hb1]
        simp only [BookingService.datesOverlap, Bool.and_eq_false_iff,
          decide_eq_false_iff_not]
        exact Or.inl (lt_irrefl B)
    refine ⟨_, _, createBooking_ok_intro s1 today n2 t2 cid nm2 em2 B C car
      hfind2 hav2 (bookingFieldsOk_intro today _ hn1 hn2 he1 he2 ?_ hBC htoday)⟩
    show (0 : ℚ) < ((C - B : Int) : ℚ) * car.daily_rate
    apply mul_pos _ hrate
    rw [Int.cast_pos]
    omega
  · intro s today n1 n2 t1 t2 cid nm1 em1 nm2 em2 A B C D b1 s1 hAB hBC hCD h1
    obtain ⟨car1, hfind1, hav1, hok1, hb1, hs1⟩ :=
      createBooking_ok_elim _ _ _ _ _ _ _ _ _ _ _ h1
    have hfind2 : JsonCarRepository.findById s1.cars cid = some car1 := by
      rw [hs1]
      exact hfind1
    have hmem : b1 ∈ s1.bookings := by
      rw [hs1]
      exact List.mem_append.mpr (Or.inr (List.mem_singleton.mpr rfl))
    have hav2 : BookingService.isCarAvailable s1 cid B D = false := by
      cases hq : BookingService.isCarAvailable s1 cid B D
      · rfl
      · exfalso
        have hov := (isCarAvailable_iff s1 cid B D).mp hq b1 hmem
          (by rw [hb1]) (by rw [hb1]; rfl)
        rw [hb1] at hov
        simp only [BookingService.datesOverlap, Bool.and_eq_false_iff,
          decide_eq_false_iff_not] at hov
        omega
    exact createBooking_conflict s1 today n2 t2 cid nm2 em2 B D car1
      hfind2 hav2

/-- Cancelling an active booking frees its own date range: under the
invariant no other active booking of the car overlapped it. -/
theorem cancel_availability (s : RentalState) (bid : Nat) (b : Booking)
    (hs : noOverlapInvariant s)
    (hfind : JsonBookingRepository.findById s.bookings bid = some b)
    (hact : b.isActive = true) :
    BookingService.isCarAvailable (BookingService.cancelBooking s bid).2
      b.car_id b.start_date b.end_date = true := by
  obtain ⟨l1, l2, hdec, hupd, hres, hl1⟩ :=
    update_decomp s.bookings bid b { b with status := BookingStatus.cancelled }
      hfind rfl
  have hstate : (BookingService.cancelBooking s bid).2 =
      { s with bookings :=
          l1 ++ { b with status := BookingStatus.cancelled } :: l2 } := by
    simp [BookingService.cancelBooking, hfind, hupd]
  rw [hstate, isCarAvailable_iff]
  intro x hx hxcar hxact
  unfold noOverlapInvariant at hs
  rw [hdec, List.pairwise_append] at hs
  obtain ⟨hp1, hp2, hcross⟩ := hs
  rcases List.mem_append.mp hx with hx1 | hx2
  · have hcomp := hcross x hx1 b (List.mem_cons_self _ _)
    rw [datesOverlap_comm]
    exact hcomp hxcar hxact hact
  · rcases List.mem_cons.mp hx2 with rfl | hx3
    · simp [Booking.isActive] at hxact
    · rw [List.pairwise_cons] at hp2
      exact hp2.1 x hx3 hxcar.symm hact hxact

/-- C6 counterexample: cancelling the already-Cancelled booking 30
succeeds, yet the range `[0,2)` stays unavailable (a Pending booking of
another customer covers it) and rebooking it fails - so the claim is
false for arbitrary invariant-satisfying states. -/
theorem cancelRebook_C6_counterexample :
    noOverlapInvariant c6State ∧
    (BookingService.cancelBooking c6State 30).1 =
      Except.ok (some
        { id := 30, car_id := 1, customer_name := "X", customer_email := "x",
          start_date := 0, end_date := 2, total_cost := 100,
          status := BookingStatus.cancelled, created_at := 0,
          updated_at := none }) ∧
    BookingService.isCarAvailable
      (BookingService.cancelBooking c6State 30).2 1 0 2 = false ∧
    (BookingService.createBooking 0 32 0
        (BookingService.cancelBooking c6State 30).2 1 "N" "n" 0 2).1 =
      Except.error "Car is not available for the selected dates" := by
  refine ⟨by decide, by decide, by decide, ?_⟩
  rw [createBooking_conflict _ 0 32 0 1 "N" "n" 0 2 sampleCar (by decide)
    (by decide)]

/-- C6 amended: after `cancel_booking` succeeds on a booking that was
Pending or Confirmed, its exact range is available again, and a
`create_booking` for the same car and range then succeeds provided the
car exists with a positive daily rate and the request fields are valid;
concretely so on `cancelState`. -/
theorem cancelThenRebook_C6 :
    (BookingService.isCarAvailable
        (BookingService.cancelBooking cancelState 5).2 1 0 2 = true ∧
      (∃ b2 s2, BookingService.createBooking 0 6 0
        (BookingService.cancelBooking cancelState 5).2 1 "N" "n" 0 2 =
          (Except.ok b2, s2))) ∧
    (∀ (s : RentalState) (bid : Nat) (b : Booking),
      noOverlapInvariant s →
      JsonBookingRepository.findById s.bookings bid = some b →
      b.isActive = true →
      BookingService.isCarAvailable (BookingService.cancelBooking s bid).2
        b.car_id b.start_date b.end_date = true) ∧
    (∀ (s : RentalState) (bid : Nat) (b : Booking) (car : Car) (today : Int)
        (newId : Nat) (createdAt : Int) (nm em : String),
      noOverlapInvariant s →
      JsonBookingRepository.findById s.bookings bid = some b →
      b.isActive = true →
      JsonCarRepository.findById s.cars b.car_id = some car →
      0 < car.daily_rate →
      1 ≤ nm.length → nm.length ≤ 100 → 1 ≤ em.length → em.length ≤ 100 →
      today ≤ b.start_date → b.start_date < b.end_date →
      ∃ b2 s2, BookingService.createBooking today newId createdAt
        (BookingService.cancelBooking s bid).2 b.car_id nm em
        b.start_date b.end_date = (Except.ok b2, s2)) := by
  refine ⟨⟨by decide, ?_⟩, ?_, ?_⟩
  · exact ⟨_, _, createBooking_ok_intro _ 0 6 0 1 "N" "n" 0 2 sampleCar
      (by decide) (by decide)
      (bookingFieldsOk_intro 0 _ (by decide) (by decide) (by decide)
        (by decide) (by norm_num [sampleCar]) (by decide) (by decide))⟩
  · intro s bid b hs hfind hact
    exact cancel_availability s bid b hs hfind hact
  · intro s bid b car today newId createdAt nm em hs hfind hact hcarfind
      hrate hn1 hn2 he1 he2 htoday hse
    have hav := cancel_availability s bid b hs hfind hact
    have hcars : (BookingService.cancelBooking s bid).2.cars = s.cars := by
      simp [BookingService.cancelBooking, hfind]
    have hfind2 : JsonCarRepository.findById
        (BookingService.cancelBooking s bid).2.cars b.car_id = some car := by
      rw [hcars]
      exact hcarfind
    refine ⟨_, _, createBooking_ok_intro _ today newId createdAt b.car_id
      nm em b.start_date b.end_date car hfind2 hav
      (bookingFieldsOk_intro today _ hn1 hn2 he1 he2 ?_ hse htoday)⟩
    show (0 : ℚ) < ((b.end_date - b.start_date : Int) : ℚ) * car.daily_rate
    apply mul_pos _ hrate
    rw [Int.cast_pos]
    omega

end CarRental
